import Mathlib

/-!
# Fraudasaurus detection-and-scoring engine: a verification development

A shallow embedding of the fraud detection pipeline (structuring,
account-takeover, dormant-abuse and multi-identity detectors plus the
alert scoring engine) together with the SQL investigation queries kept
in the repository (`sql/01_structuring_detection.sql`,
`sql/02_account_takeover.sql`, `sql/00_reference.sql`).

Conventions of the embedding:
* monetary amounts are integer cents, so the $10,000 CTR threshold is
  1,000,000 cents, $3,000 is 300,000 cents and "equal within $0.01"
  means the absolute difference is at most one cent;
* timestamps are seconds, a calendar day is `timeSec / 86400`,
  a 7-day window is 604800 seconds, a 5-minute window is 300 seconds,
  a 30-day window is 2,592,000 seconds;
* core-banking dates are day numbers; 12 months of dormancy is modelled
  as 365 days and 5 years as 1825 days.

The repository ships the detector modules only as SQL investigation
queries plus a design document; the Python pipeline
(`src/detectors/*.py`, `src/scoring.py`) is declared but not present.
Definitions marked `Modelled from the spec:` therefore follow the
specification's wording for the missing module; the SQL that is present
is embedded directly.
-/

/-- Alert severity levels, from the Alert model. -/
inductive Severity where
  | low
  | medium
  | high
  | critical
deriving DecidableEq

/-- Fraud category tags carried by every alert. -/
inductive FraudCategory where
  | structuring
  | account_takeover
  | dormant_abuse
  | multi_identity
deriving DecidableEq

/-- Modelled from the spec: the fixed severity-to-points mapping of the
missing `src/scoring.py` (critical=40, high=25, medium=10, low=5). -/
def sevPoints : Severity → Nat
  | .critical => 40
  | .high => 25
  | .medium => 10
  | .low => 5

/-- Numeric rank of a severity, used to state "severity at least HIGH". -/
def sevRank : Severity → Nat
  | .low => 0
  | .medium => 1
  | .high => 2
  | .critical => 3

/-- The normalized evidence record emitted by every detector. -/
structure Alert where
  subject : String
  category : FraudCategory
  severity : Severity
  evidence : String
deriving DecidableEq

/-- Per-subject action tier assigned from the composite score. -/
inductive Tier where
  | critical
  | high
  | medium
  | low
deriving DecidableEq

/-- Modelled from the spec: tier table of the missing `src/scoring.py`
(80-100 critical, 50-79 high, 25-49 medium, 1-24 low). -/
def tierOf (score : Nat) : Tier :=
  if 80 ≤ score then .critical
  else if 50 ≤ score then .high
  else if 25 ≤ score then .medium
  else .low

/-- The per-subject output unit of the scoring engine. -/
structure ScoredEntity where
  subject : String
  alerts : List Alert
  score : Nat
  tier : Tier
deriving DecidableEq

/-- The alerts contributed by one subject. -/
def alertsFor (alerts : List Alert) (s : String) : List Alert :=
  alerts.filter (fun a => a.subject == s)

/-- Modelled from the spec: composite score of the missing
`src/scoring.py` - sum of the point values of all of the subject's
alerts, capped at 100. -/
def compositeScore (alerts : List Alert) (s : String) : Nat :=
  min 100 ((alertsFor alerts s).map (fun a => sevPoints a.severity)).sum

/-- Modelled from the spec: the missing `src/scoring.py` groups alerts
by subject identifier and emits one `ScoredEntity` per distinct subject
appearing in the alert stream. -/
def scoringEngine (alerts : List Alert) : List ScoredEntity :=
  ((alerts.map Alert.subject).dedup).map (fun s =>
    ⟨s, alertsFor alerts s, compositeScore alerts s,
      tierOf (compositeScore alerts s)⟩)

/-- Claim C1: for every subject with at least one alert, the Scoring
Engine's composite score equals min(100, sum of the fixed point values
of the subject's alerts), with critical=40, high=25, medium=10, low=5. -/
theorem scoring_composite_eq (alerts : List Alert) (subj : String)
    (h : ∃ a ∈ alerts, a.subject = subj) :
    (∃ e ∈ scoringEngine alerts, e.subject = subj ∧
      e.score = min 100 (((alerts.filter (fun a => a.subject == subj)).map
        (fun a => sevPoints a.severity)).sum)) ∧
    sevPoints .critical = 40 ∧ sevPoints .high = 25 ∧
    sevPoints .medium = 10 ∧ sevPoints .low = 5 := by
  obtain ⟨a, ha, hs⟩ := h
  have hmem : subj ∈ (alerts.map Alert.subject).dedup :=
    List.mem_dedup.mpr (List.mem_map.mpr ⟨a, ha, hs⟩)
  exact ⟨⟨_, List.mem_map.mpr ⟨subj, hmem, rfl⟩, rfl, rfl⟩, rfl, rfl, rfl, rfl⟩

/-- Example alert stream used to witness the scoring claims. -/
def exAlerts : List Alert :=
  [⟨"acct1", .structuring, .critical, "repeat 7980"⟩,
   ⟨"acct1", .account_takeover, .high, "burst"⟩,
   ⟨"acct2", .dormant_abuse, .medium, "gap"⟩]

/-- Witness for C1 at a concrete alert stream. -/
theorem scoring_composite_eq_witness :
    (∃ a ∈ exAlerts, a.subject = "acct1") ∧
    ((∃ e ∈ scoringEngine exAlerts, e.subject = "acct1" ∧
      e.score = min 100 (((exAlerts.filter (fun a => a.subject == "acct1")).map
        (fun a => sevPoints a.severity)).sum)) ∧
    sevPoints .critical = 40 ∧ sevPoints .high = 25 ∧
    sevPoints .medium = 10 ∧ sevPoints .low = 5) :=
  ⟨by decide, scoring_composite_eq exAlerts "acct1" (by decide)⟩

/-- Claim C2: the composite score is invariant under any reordering of
the alert stream, and every emitted score is at most 100. -/
theorem scoring_perm_invariant (a₁ a₂ : List Alert) (h : a₁.Perm a₂) :
    (∀ s, compositeScore a₁ s = compositeScore a₂ s) ∧
    ∀ e ∈ scoringEngine a₁, e.score ≤ 100 := by
  constructor
  · intro s
    unfold compositeScore alertsFor
    rw [List.Perm.sum_eq (List.Perm.map _ (List.Perm.filter _ h))]
  · intro e he
    obtain ⟨s, _, rfl⟩ := List.mem_map.mp he
    exact Nat.min_le_left _ _

/-- Permutation of `exAlerts` used to witness C2. -/
def exAlertsPerm : List Alert :=
  [⟨"acct2", .dormant_abuse, .medium, "gap"⟩,
   ⟨"acct1", .account_takeover, .high, "burst"⟩,
   ⟨"acct1", .structuring, .critical, "repeat 7980"⟩]

/-- Witness for C2 at a concrete permuted pair of alert streams. -/
theorem scoring_perm_invariant_witness :
    (∀ s, compositeScore exAlerts s = compositeScore exAlertsPerm s) ∧
    ∀ e ∈ scoringEngine exAlerts, e.score ≤ 100 :=
  scoring_perm_invariant exAlerts exAlertsPerm (by decide)

/-- Claim C9: every emitted ScoredEntity has a strictly positive score
and a subject that contributed at least one alert; zero-alert subjects
never appear. -/
theorem scoring_no_zero_entities (alerts : List Alert) (e : ScoredEntity)
    (h : e ∈ scoringEngine alerts) :
    0 < e.score ∧ ∃ a ∈ alerts, a.subject = e.subject := by
  obtain ⟨s, hs, rfl⟩ := List.mem_map.mp h
  obtain ⟨a, ha, has⟩ := List.mem_map.mp (List.mem_dedup.mp hs)
  refine ⟨?_, a, ha, has⟩
  have hafilter : a ∈ alertsFor alerts s :=
    List.mem_filter.mpr ⟨ha, by simp [has]⟩
  have hsum : sevPoints a.severity ≤
      ((alertsFor alerts s).map (fun a => sevPoints a.severity)).sum :=
    List.single_le_sum (fun x _ => Nat.zero_le x) _
      (List.mem_map.mpr ⟨a, hafilter, rfl⟩)
  have h5 : 5 ≤ sevPoints a.severity := by
    cases a.severity <;> simp [sevPoints]
  show 0 < compositeScore alerts s
  unfold compositeScore
  omega

/-- Single-alert stream used to witness C9. -/
def exAlertsOne : List Alert := [⟨"m6", .dormant_abuse, .critical, "gap"⟩]

/-- Witness for C9 at a concrete emitted entity. -/
theorem scoring_no_zero_entities_witness :
    0 < (ScoredEntity.mk "m6" exAlertsOne 40 Tier.medium).score ∧
    ∃ a ∈ exAlertsOne,
      a.subject = (ScoredEntity.mk "m6" exAlertsOne 40 Tier.medium).subject :=
  scoring_no_zero_entities exAlertsOne _ (by decide)

/-- A Banno digital transaction record (amount in signed cents). -/
structure Transaction where
  accountId : String
  amountCents : Int
  timeSec : Nat
  memo : String
  bannoType : String
  userId : Option String
deriving DecidableEq

/-- Calendar day of a transaction (`CAST(DatePosted AS DATE)`). -/
def txnDay (t : Transaction) : Nat := t.timeSec / 86400

/-- Transactions of one account (grouping by `AccountId`). -/
def acctTxns (txns : List Transaction) (acct : String) : List Transaction :=
  txns.filter (fun t => t.accountId == acct)

/-- Absolute amount lies in the repeating-amount band [$3,000, T-1). -/
def inRepeatRange (a : Int) : Prop := 300000 ≤ a.natAbs ∧ a.natAbs < 999900

instance (a : Int) : Decidable (inRepeatRange a) := by
  unfold inRepeatRange; exact inferInstance

/-- Absolute amount lies in the daily-aggregation band [$2,000, T-1). -/
def inDailyRange (a : Int) : Prop := 200000 ≤ a.natAbs ∧ a.natAbs < 999900

instance (a : Int) : Decidable (inDailyRange a) := by
  unfold inDailyRange; exact inferInstance

/-- Two amounts are equal within $0.01 (one cent). -/
def sameAmount (a b : Int) : Prop :=
  a.natAbs ≤ b.natAbs + 1 ∧ b.natAbs ≤ a.natAbs + 1

instance (a b : Int) : Decidable (sameAmount a b) := by
  unfold sameAmount; exact inferInstance

/-- Number of the account's transactions that repeat the pivot
transaction's amount (within one cent, inside the band) in the window of
`wSec` seconds starting at the pivot. -/
def repeatWindowCount (txns : List Transaction) (acct : String)
    (p : Transaction) (wSec : Nat) : Nat :=
  ((acctTxns txns acct).filter (fun u =>
    decide (inRepeatRange u.amountCents ∧
      sameAmount u.amountCents p.amountCents ∧
      p.timeSec ≤ u.timeSec ∧ u.timeSec < p.timeSec + wSec))).length

/-- Modelled from the spec: repeating-amount rule of the missing
`src/detectors/structuring.py` - at least 3 same-amount transactions in
the band within a rolling 7-day window. -/
def repeatingHigh (txns : List Transaction) (acct : String) : Prop :=
  ∃ p ∈ acctTxns txns acct, inRepeatRange p.amountCents ∧
    3 ≤ repeatWindowCount txns acct p 604800

instance (txns : List Transaction) (acct : String) :
    Decidable (repeatingHigh txns acct) := by
  unfold repeatingHigh; exact List.decidableBEx _ _

/-- Modelled from the spec: escalation of the repeating-amount rule -
the count exceeds 10 at the same amount within 30 days. -/
def repeatingCritical (txns : List Transaction) (acct : String) : Prop :=
  ∃ p ∈ acctTxns txns acct, inRepeatRange p.amountCents ∧
    11 ≤ repeatWindowCount txns acct p 2592000

instance (txns : List Transaction) (acct : String) :
    Decidable (repeatingCritical txns acct) := by
  unfold repeatingCritical; exact List.decidableBEx _ _

/-- Daily sum of absolute amounts in the band [$2,000, T-1) for one
account and calendar day, as in the daily-aggregation rule and the
`GROUP BY AccountId, CAST(DatePosted AS DATE)` query. -/
def dailyStructSum (txns : List Transaction) (acct : String) (d : Nat) : Nat :=
  (((acctTxns txns acct).filter (fun u =>
    decide (inDailyRange u.amountCents ∧ txnDay u = d))).map
      (fun u => u.amountCents.natAbs)).sum

/-- No single transaction of the account on day `d` reaches the
reporting threshold T = $10,000. -/
def noSingleReachesT (txns : List Transaction) (acct : String) (d : Nat) : Prop :=
  ∀ u ∈ acctTxns txns acct, txnDay u = d → u.amountCents.natAbs < 1000000

instance (txns : List Transaction) (acct : String) (d : Nat) :
    Decidable (noSingleReachesT txns acct d) := by
  unfold noSingleReachesT; exact List.decidableBAll _ _

/-- Modelled from the spec: daily-aggregation rule of the missing
`src/detectors/structuring.py` - on some calendar day the banded sum
exceeds T while no single transaction that day reaches T. -/
def dailyAggHigh (txns : List Transaction) (acct : String) : Prop :=
  ∃ p ∈ acctTxns txns acct,
    1000000 < dailyStructSum txns acct (txnDay p) ∧
    noSingleReachesT txns acct (txnDay p)

instance (txns : List Transaction) (acct : String) :
    Decidable (dailyAggHigh txns acct) := by
  unfold dailyAggHigh; exact List.decidableBEx _ _

/-- Banded sum over a rolling 7-day window of calendar days. -/
def weeklyStructSum (txns : List Transaction) (acct : String) (d : Nat) : Nat :=
  (((acctTxns txns acct).filter (fun u =>
    decide (inDailyRange u.amountCents ∧ d ≤ txnDay u ∧ txnDay u < d + 7))).map
      (fun u => u.amountCents.natAbs)).sum

/-- Modelled from the spec: weekly escalation of the aggregation rule -
rolling 7-day banded sum over 2.5 x T ($25,000). -/
def weeklyAggCritical (txns : List Transaction) (acct : String) : Prop :=
  ∃ p ∈ acctTxns txns acct, 2500000 < weeklyStructSum txns acct (txnDay p)

instance (txns : List Transaction) (acct : String) :
    Decidable (weeklyAggCritical txns acct) := by
  unfold weeklyAggCritical; exact List.decidableBEx _ _

/-- Modelled from the spec: the structuring detector assigns each
account the maximum severity across its triggered rules, or nothing when
no rule triggered. -/
def structuringSeverity (txns : List Transaction) (acct : String) :
    Option Severity :=
  if repeatingCritical txns acct ∨ weeklyAggCritical txns acct then
    some .critical
  else if repeatingHigh txns acct ∨ dailyAggHigh txns acct then
    some .high
  else none

/-- Modelled from the spec: the structuring detector emits at most one
alert per account, at the maximum triggered severity. -/
def structuringAlerts (txns : List Transaction) : List Alert :=
  ((txns.map Transaction.accountId).dedup).filterMap (fun acct =>
    (structuringSeverity txns acct).map (fun s =>
      ⟨acct, .structuring, s, "structuring pattern"⟩))

/-- The account appears in the detector output with the severity that
`structuringSeverity` assigned. -/
theorem mem_structuringAlerts (txns : List Transaction) (acct : String)
    (s : Severity) (hacct : acct ∈ (txns.map Transaction.accountId).dedup)
    (hsev : structuringSeverity txns acct = some s) :
    (⟨acct, .structuring, s, "structuring pattern"⟩ : Alert) ∈
      structuringAlerts txns :=
  List.mem_filterMap.mpr ⟨acct, hacct, by rw [hsev]; rfl⟩

/-- If a HIGH rule triggered, the assigned severity exists and is at
least HIGH. -/
theorem structuringSeverity_of_high (txns : List Transaction) (acct : String)
    (h : repeatingHigh txns acct ∨ dailyAggHigh txns acct) :
    ∃ s, structuringSeverity txns acct = some s ∧ 2 ≤ sevRank s := by
  unfold structuringSeverity
  by_cases hc : repeatingCritical txns acct ∨ weeklyAggCritical txns acct
  · exact ⟨.critical, if_pos hc, by decide⟩
  · exact ⟨.high, by rw [if_neg hc, if_pos h], by decide⟩

/-- An account of some transaction in the stream appears in the grouped
account list. -/
theorem acct_mem_dedup {txns : List Transaction} {acct : String}
    {u : Transaction} (hu : u ∈ acctTxns txns acct) :
    acct ∈ (txns.map Transaction.accountId).dedup := by
  obtain ⟨hmem, hbeq⟩ := List.mem_filter.mp hu
  exact List.mem_dedup.mpr (List.mem_map.mpr ⟨u, hmem, eq_of_beq hbeq⟩)

/-- Claim C3, amended: a day whose banded sum exceeds T with no single
transaction reaching T makes the structuring detector emit an alert of
severity at least HIGH for the account (the detector reports the maximum
severity across its rules, so the alert can be CRITICAL rather than
exactly HIGH). -/
theorem structuring_daily_alert (txns : List Transaction) (acct : String)
    (d : Nat) (h1 : 1000000 < dailyStructSum txns acct d)
    (h2 : noSingleReachesT txns acct d) :
    ∃ al ∈ structuringAlerts txns, al.subject = acct ∧
      al.category = .structuring ∧ 2 ≤ sevRank al.severity := by
  have hne : ((acctTxns txns acct).filter (fun u =>
      decide (inDailyRange u.amountCents ∧ txnDay u = d))) ≠ [] := by
    intro hnil
    have hzero : dailyStructSum txns acct d = 0 := by
      unfold dailyStructSum
      rw [hnil]
      rfl
    omega
  obtain ⟨u, hu⟩ := List.exists_mem_of_ne_nil _ hne
  have humem : u ∈ acctTxns txns acct := (List.mem_filter.mp hu).1
  have hUd : txnDay u = d := (of_decide_eq_true (List.mem_filter.mp hu).2).2
  have hdaily : dailyAggHigh txns acct :=
    ⟨u, humem, by rw [hUd]; exact h1, by rw [hUd]; exact h2⟩
  obtain ⟨s, hsev, hrank⟩ :=
    structuringSeverity_of_high txns acct (Or.inr hdaily)
  exact ⟨_, mem_structuringAlerts txns acct s (acct_mem_dedup humem) hsev,
    rfl, rfl, hrank⟩

/-- Five same-day $6,000 transfers: the daily rule fires, but the weekly
escalation fires too, so the emitted severity is CRITICAL, not HIGH. -/
def exDaily : List Transaction :=
  [⟨"A", 600000, 0, "m", "transfer", none⟩,
   ⟨"A", 600000, 100, "m", "transfer", none⟩,
   ⟨"A", 600000, 200, "m", "transfer", none⟩,
   ⟨"A", 600000, 300, "m", "transfer", none⟩,
   ⟨"A", 600000, 400, "m", "transfer", none⟩]

/-- Counterexample to C3 as stated: on `exDaily` the day-0 banded sum
exceeds T and no single transaction reaches T, yet the detector emits no
alert of severity exactly HIGH for account A (the alert is CRITICAL). -/
theorem structuring_daily_counterexample :
    1000000 < dailyStructSum exDaily "A" 0 ∧
    noSingleReachesT exDaily "A" 0 ∧
    ¬ ∃ al ∈ structuringAlerts exDaily, al.subject = "A" ∧
      al.category = FraudCategory.structuring ∧
      al.severity = Severity.high := by
  decide

/-- Two $6,000 transfers on one day, used to witness the amended C3. -/
def exDailyTwo : List Transaction :=
  [⟨"B", 600000, 0, "m", "transfer", none⟩,
   ⟨"B", -600000, 100, "m", "transfer", none⟩]

/-- Witness for the amended C3 at a concrete transaction set. -/
theorem structuring_daily_alert_witness :
    (1000000 < dailyStructSum exDailyTwo "B" 0 ∧
      noSingleReachesT exDailyTwo "B" 0) ∧
    ∃ al ∈ structuringAlerts exDailyTwo, al.subject = "B" ∧
      al.category = FraudCategory.structuring ∧ 2 ≤ sevRank al.severity :=
  ⟨⟨by decide, by decide⟩,
    structuring_daily_alert exDailyTwo "B" 0 (by decide) (by decide)⟩

/-- A sub-multiset of same-amount banded transactions inside one rolling
window bounds the repeat count anchored at its earliest element. -/
theorem repeat_count_of_subperm (txns : List Transaction) (acct : String)
    (l : List Transaction) (w wSec : Nat)
    (hsub : l.Subperm txns) (hne : l ≠ [])
    (hacct : ∀ t ∈ l, t.accountId = acct)
    (hrange : ∀ t ∈ l, inRepeatRange t.amountCents)
    (hsame : ∀ t ∈ l, ∀ u ∈ l, sameAmount u.amountCents t.amountCents)
    (hwin : ∀ t ∈ l, w ≤ t.timeSec ∧ t.timeSec < w + wSec) :
    ∃ p ∈ acctTxns txns acct, inRepeatRange p.amountCents ∧
      l.length ≤ repeatWindowCount txns acct p wSec := by
  cases hm : l.argmin Transaction.timeSec with
  | none => exact absurd (List.argmin_eq_none.mp hm) hne
  | some p =>
    have hmm : p ∈ l.argmin Transaction.timeSec := Option.mem_def.mpr hm
    have hpmem : p ∈ l := List.argmin_mem hmm
    have hpmin : ∀ a ∈ l, p.timeSec ≤ a.timeSec := fun a ha =>
      List.le_of_mem_argmin ha hmm
    have hpacct : p ∈ acctTxns txns acct := by
      refine List.mem_filter.mpr ⟨hsub.subset hpmem, ?_⟩
      rw [hacct p hpmem]
      exact beq_self_eq_true acct
    have hlall : ∀ u ∈ l, (fun u => decide (inRepeatRange u.amountCents ∧
        sameAmount u.amountCents p.amountCents ∧
        p.timeSec ≤ u.timeSec ∧ u.timeSec < p.timeSec + wSec)) u = true := by
      intro u hu
      refine decide_eq_true ⟨hrange u hu, hsame p hpmem u hu, hpmin u hu, ?_⟩
      have h₁ := (hwin u hu).2
      have h₂ := (hwin p hpmem).1
      omega
    have hacctall : ∀ t ∈ l, (fun t => t.accountId == acct) t = true := by
      intro t ht
      show (t.accountId == acct) = true
      rw [hacct t ht]
      exact beq_self_eq_true acct
    have hsub2 : l.Subperm (acctTxns txns acct) := by
      have hf := List.Subperm.filter (fun t => t.accountId == acct) hsub
      rwa [List.filter_eq_self.mpr hacctall] at hf
    refine ⟨p, hpacct, hrange p hpmem, ?_⟩
    calc l.length
        = (l.filter (fun u => decide (inRepeatRange u.amountCents ∧
            sameAmount u.amountCents p.amountCents ∧
            p.timeSec ≤ u.timeSec ∧ u.timeSec < p.timeSec + wSec))).length := by
          rw [List.filter_eq_self.mpr hlall]
      _ ≤ repeatWindowCount txns acct p wSec :=
          (List.Subperm.filter _ hsub2).length_le

/-- Claim C4: at least 3 same-amount banded transactions inside a rolling
7-day window yield a structuring alert of severity at least HIGH, and a
same-amount count over 10 inside a 30-day window escalates the alert to
CRITICAL. -/
theorem structuring_repeating_alert (txns : List Transaction) (acct : String)
    (l : List Transaction) (w : Nat)
    (hsub : l.Subperm txns) (hlen : 3 ≤ l.length)
    (hacct : ∀ t ∈ l, t.accountId = acct)
    (hrange : ∀ t ∈ l, inRepeatRange t.amountCents)
    (hsame : ∀ t ∈ l, ∀ u ∈ l, sameAmount u.amountCents t.amountCents)
    (hwin : ∀ t ∈ l, w ≤ t.timeSec ∧ t.timeSec < w + 604800) :
    (∃ al ∈ structuringAlerts txns, al.subject = acct ∧
      al.category = .structuring ∧ 2 ≤ sevRank al.severity) ∧
    (∀ (l₂ : List Transaction) (w₂ : Nat), l₂.Subperm txns → 11 ≤ l₂.length →
      (∀ t ∈ l₂, t.accountId = acct) →
      (∀ t ∈ l₂, inRepeatRange t.amountCents) →
      (∀ t ∈ l₂, ∀ u ∈ l₂, sameAmount u.amountCents t.amountCents) →
      (∀ t ∈ l₂, w₂ ≤ t.timeSec ∧ t.timeSec < w₂ + 2592000) →
      ∃ al ∈ structuringAlerts txns, al.subject = acct ∧
        al.category = .structuring ∧ al.severity = .critical) := by
  have hne : l ≠ [] := by
    intro hn
    rw [hn] at hlen
    simp at hlen
  obtain ⟨p, hp, hpr, hpc⟩ := repeat_count_of_subperm txns acct l w 604800
    hsub hne hacct hrange hsame hwin
  have hhigh : repeatingHigh txns acct := ⟨p, hp, hpr, le_trans hlen hpc⟩
  constructor
  · obtain ⟨s, hsev, hrank⟩ :=
      structuringSeverity_of_high txns acct (Or.inl hhigh)
    exact ⟨_, mem_structuringAlerts txns acct s (acct_mem_dedup hp) hsev,
      rfl, rfl, hrank⟩
  · intro l₂ w₂ hsub₂ hlen₂ hacct₂ hrange₂ hsame₂ hwin₂
    have hne₂ : l₂ ≠ [] := by
      intro hn
      rw [hn] at hlen₂
      simp at hlen₂
    obtain ⟨q, hq, hqr, hqc⟩ := repeat_count_of_subperm txns acct l₂ w₂
      2592000 hsub₂ hne₂ hacct₂ hrange₂ hsame₂ hwin₂
    have hcrit : repeatingCritical txns acct := ⟨q, hq, hqr, le_trans hlen₂ hqc⟩
    have hsev : structuringSeverity txns acct = some .critical := by
      unfold structuringSeverity
      rw [if_pos (Or.inl hcrit)]
    exact ⟨_, mem_structuringAlerts txns acct .critical (acct_mem_dedup hq)
      hsev, rfl, rfl, rfl⟩

/-- Three $7,980 transfers inside one week, used to witness C4. -/
def exRepeat : List Transaction :=
  [⟨"C", 798000, 0, "m", "transfer", none⟩,
   ⟨"C", 798000, 3600, "m", "transfer", none⟩,
   ⟨"C", 798000, 7200, "m", "transfer", none⟩]

/-- Witness for C4 at a concrete transaction set. -/
theorem structuring_repeating_alert_witness :
    (3 : Nat) ≤ exRepeat.length ∧
    ((∃ al ∈ structuringAlerts exRepeat, al.subject = "C" ∧
      al.category = FraudCategory.structuring ∧ 2 ≤ sevRank al.severity) ∧
    (∀ (l₂ : List Transaction) (w₂ : Nat), l₂.Subperm exRepeat → 11 ≤ l₂.length →
      (∀ t ∈ l₂, t.accountId = "C") →
      (∀ t ∈ l₂, inRepeatRange t.amountCents) →
      (∀ t ∈ l₂, ∀ u ∈ l₂, sameAmount u.amountCents t.amountCents) →
      (∀ t ∈ l₂, w₂ ≤ t.timeSec ∧ t.timeSec < w₂ + 2592000) →
      ∃ al ∈ structuringAlerts exRepeat, al.subject = "C" ∧
        al.category = FraudCategory.structuring ∧
        al.severity = Severity.critical)) :=
  ⟨by decide, structuring_repeating_alert exRepeat "C" exRepeat 0
    (List.Subperm.refl _) (by decide) (by decide) (by decide) (by decide)
    (by decide)⟩

/-- Claim C8: a transaction set in which every amount is exactly the
reporting threshold T = $10,000 produces no structuring alert at all. -/
theorem structuring_threshold_excluded (txns : List Transaction)
    (h : ∀ t ∈ txns, t.amountCents.natAbs = 1000000) :
    structuringAlerts txns = [] := by
  refine List.filterMap_eq_nil_iff.mpr ?_
  intro acct _
  have hmem : ∀ u ∈ acctTxns txns acct, u.amountCents.natAbs = 1000000 :=
    fun u hu => h u (List.mem_filter.mp hu).1
  have hdailyfilter : ∀ d, (acctTxns txns acct).filter (fun u =>
      decide (inDailyRange u.amountCents ∧ txnDay u = d)) = [] := by
    intro d
    refine List.filter_eq_nil_iff.mpr ?_
    intro u hu hdec
    have hprop := of_decide_eq_true hdec
    have hT := hmem u hu
    unfold inDailyRange at hprop
    omega
  have hnr : ¬ (repeatingCritical txns acct ∨ weeklyAggCritical txns acct) := by
    rintro (⟨p, hp, hpr, _⟩ | ⟨p, hp, hw⟩)
    · have hT := hmem p hp
      unfold inRepeatRange at hpr
      omega
    · have hzero : weeklyStructSum txns acct (txnDay p) = 0 := by
        unfold weeklyStructSum
        have hfil : (acctTxns txns acct).filter (fun u =>
            decide (inDailyRange u.amountCents ∧ txnDay p ≤ txnDay u ∧
              txnDay u < txnDay p + 7)) = [] := by
          refine List.filter_eq_nil_iff.mpr ?_
          intro u hu hdec
          have hprop := of_decide_eq_true hdec
          have hT := hmem u hu
          unfold inDailyRange at hprop
          omega
        rw [hfil]
        rfl
      omega
  have hnh : ¬ (repeatingHigh txns acct ∨ dailyAggHigh txns acct) := by
    rintro (⟨p, hp, hpr, _⟩ | ⟨p, hp, hd, _⟩)
    · have hT := hmem p hp
      unfold inRepeatRange at hpr
      omega
    · have hzero : dailyStructSum txns acct (txnDay p) = 0 := by
        unfold dailyStructSum
        rw [hdailyfilter (txnDay p)]
        rfl
      omega
  have hnone : structuringSeverity txns acct = none := by
    unfold structuringSeverity
    rw [if_neg hnr, if_neg hnh]
  rw [hnone]
  rfl

/-- Two threshold-amount ($10,000) transactions, used to witness C8. -/
def exThreshold : List Transaction :=
  [⟨"D", 1000000, 0, "m", "transfer", none⟩,
   ⟨"D", -1000000, 3600, "m", "transfer", none⟩]

/-- Witness for C8 at a concrete transaction set. -/
theorem structuring_threshold_excluded_witness :
    (∀ t ∈ exThreshold, t.amountCents.natAbs = 1000000) ∧
    structuringAlerts exThreshold = [] :=
  ⟨by decide, structuring_threshold_excluded exThreshold (by decide)⟩

/-- A Banno login attempt record (`login_attempts_fct` row shape). -/
structure LoginAttempt where
  username : String
  resultId : Nat
  timeSec : Nat
  clientIp : String
deriving DecidableEq

/-- Login attempts of one username (`PARTITION BY username`). -/
def userAttempts (logins : List LoginAttempt) (u : String) : List LoginAttempt :=
  logins.filter (fun a => a.username == u)

/-- A candidate run of five attempts is a burst when all five failed
(result code differs from 1), came from the first attempt's source
address, and fall inside the 5-minute window opened by the first. -/
def burstRun (ws : List LoginAttempt) : Bool :=
  match ws with
  | a :: rest =>
    (rest.length == 4) && (a :: rest).all (fun x =>
      decide (x.resultId ≠ 1) && (x.clientIp == a.clientIp) &&
      decide (a.timeSec ≤ x.timeSec ∧ x.timeSec < a.timeSec + 300))
  | [] => false

/-- Modelled from the spec: burst-failure rule of the missing
`src/detectors/account_takeover.py` - at least 5 consecutive failed
attempts within a 5-minute window from a single source address. -/
def burstFailure (l : List LoginAttempt) : Bool :=
  (List.range l.length).any (fun i => burstRun ((l.drop i).take 5))

/-- Modelled from the spec: sustained-failure rule - failed/total at
least one half over a rolling 24-hour window with at least 5 attempts. -/
def sustainedFailure (l : List LoginAttempt) : Bool :=
  l.any (fun a =>
    decide (5 ≤ (l.filter (fun x =>
      decide (a.timeSec ≤ x.timeSec ∧ x.timeSec < a.timeSec + 86400))).length) &&
    decide ((l.filter (fun x =>
      decide (a.timeSec ≤ x.timeSec ∧ x.timeSec < a.timeSec + 86400))).length ≤
      2 * ((l.filter (fun x =>
        decide (a.timeSec ≤ x.timeSec ∧ x.timeSec < a.timeSec + 86400))).filter
          (fun x => decide (x.resultId ≠ 1))).length))

/-- Modelled from the spec: IP-velocity rule, 7-day part - at least 3
distinct source addresses for one username within 7 days. -/
def ipVelocityMedium (l : List LoginAttempt) : Bool :=
  l.any (fun a =>
    decide (3 ≤ ((l.filter (fun x =>
      decide (a.timeSec ≤ x.timeSec ∧ x.timeSec < a.timeSec + 604800))).map
        (fun x => x.clientIp)).dedup.length))

/-- Modelled from the spec: IP-velocity rule, 30-day part - at least 10
distinct source addresses within 30 days. -/
def ipVelocityHigh (l : List LoginAttempt) : Bool :=
  l.any (fun a =>
    decide (10 ≤ ((l.filter (fun x =>
      decide (a.timeSec ≤ x.timeSec ∧ x.timeSec < a.timeSec + 2592000))).map
        (fun x => x.clientIp)).dedup.length))

/-- Modelled from the spec: the account-takeover detector reports each
triggered rule as its own alert for the username. -/
def atoUserAlerts (logins : List LoginAttempt) (u : String) : List Alert :=
  (if burstFailure (userAttempts logins u) then
    [⟨u, .account_takeover, .critical, "burst of failed logins"⟩] else []) ++
  (if sustainedFailure (userAttempts logins u) then
    [⟨u, .account_takeover, .high, "sustained failure rate"⟩] else []) ++
  (if ipVelocityHigh (userAttempts logins u) then
    [⟨u, .account_takeover, .high, "ip velocity 30d"⟩]
   else if ipVelocityMedium (userAttempts logins u) then
    [⟨u, .account_takeover, .medium, "ip velocity 7d"⟩] else [])

/-- Modelled from the spec: the missing
`src/detectors/account_takeover.py` evaluates the login-sequence rules
per username. -/
def accountTakeoverAlerts (logins : List LoginAttempt) : List Alert :=
  ((logins.map LoginAttempt.username).dedup).flatMap
    (fun u => atoUserAlerts logins u)

/-- Claim C5: a username whose time-ordered login history contains at
least 5 consecutive failed attempts, all from one source address and
inside one 5-minute window, receives a CRITICAL account-takeover
alert. -/
theorem ato_burst_alert (logins : List LoginAttempt) (u ip : String)
    (s r t : List LoginAttempt) (w : Nat)
    (hsorted : List.Pairwise (fun a b => a.timeSec ≤ b.timeSec) logins)
    (hdecomp : userAttempts logins u = s ++ r ++ t)
    (hlen : 5 ≤ r.length)
    (hfail : ∀ x ∈ r, x.resultId ≠ 1)
    (hip : ∀ x ∈ r, x.clientIp = ip)
    (hwin : ∀ x ∈ r, w ≤ x.timeSec ∧ x.timeSec < w + 300) :
    ∃ al ∈ accountTakeoverAlerts logins, al.subject = u ∧
      al.category = .account_takeover ∧ al.severity = .critical := by
  have hrne : r ≠ [] := by
    intro hn
    rw [hn] at hlen
    simp at hlen
  obtain ⟨a, rest, rfl⟩ := List.exists_cons_of_ne_nil hrne
  -- the username's sequence is still time ordered
  have hlsorted : List.Pairwise (fun a b => a.timeSec ≤ b.timeSec)
      (userAttempts logins u) :=
    List.Pairwise.sublist (List.filter_sublist _) hsorted
  have hrsorted : List.Pairwise (fun a b => a.timeSec ≤ b.timeSec)
      (a :: rest) := by
    refine List.Pairwise.sublist ?_ hlsorted
    rw [hdecomp]
    exact (List.infix_append s (a :: rest) t).sublist
  have hamin : ∀ x ∈ rest, a.timeSec ≤ x.timeSec :=
    fun x hx => List.rel_of_pairwise_cons hrsorted hx
  have hrest4 : 4 ≤ rest.length := by
    have := hlen
    simp only [List.length_cons] at this
    omega
  -- the window of five starting at index s.length is a burst run
  have htake : ((userAttempts logins u).drop s.length).take 5 =
      a :: rest.take 4 := by
    rw [hdecomp, List.append_assoc, List.drop_left,
      List.take_append_of_le_length (by simpa using hrest4)]
    rfl
  have hburst : burstFailure (userAttempts logins u) = true := by
    rw [burstFailure, List.any_eq_true]
    refine ⟨s.length, List.mem_range.mpr ?_, ?_⟩
    · rw [hdecomp]
      simp only [List.length_append, List.length_cons]
      omega
    · rw [htake, burstRun]
      have hlen4 : (rest.take 4).length = 4 := by
        rw [List.length_take]
        omega
      rw [Bool.and_eq_true]
      refine ⟨by rw [hlen4]; rfl, ?_⟩
      rw [List.all_eq_true]
      intro x hx
      have hxr : x ∈ a :: rest := by
        rcases List.mem_cons.mp hx with h | h
        · exact h ▸ List.mem_cons_self a rest
        · exact List.mem_cons_of_mem a ((List.take_sublist 4 rest).subset h)
      have hax : a.timeSec ≤ x.timeSec := by
        rcases List.mem_cons.mp hxr with h | h
        · rw [h]
        · exact hamin x h
      rw [Bool.and_eq_true, Bool.and_eq_true]
      refine ⟨⟨decide_eq_true (hfail x hxr), ?_⟩, decide_eq_true ⟨hax, ?_⟩⟩
      · rw [hip x hxr, hip a (List.mem_cons_self a rest)]
        exact beq_self_eq_true ip
      · have h₁ := (hwin x hxr).2
        have h₂ := (hwin a (List.mem_cons_self a rest)).1
        omega
  have humem : u ∈ (logins.map LoginAttempt.username).dedup := by
    have hamem : a ∈ userAttempts logins u := by
      rw [hdecomp]
      exact List.mem_append_left t (List.mem_append_right s
        (List.mem_cons_self a rest))
    obtain ⟨hin, hbeq⟩ := List.mem_filter.mp hamem
    exact List.mem_dedup.mpr (List.mem_map.mpr ⟨a, hin, eq_of_beq hbeq⟩)
  refine ⟨⟨u, .account_takeover, .critical, "burst of failed logins"⟩,
    List.mem_flatMap.mpr ⟨u, humem, ?_⟩, rfl, rfl, rfl⟩
  unfold atoUserAlerts
  rw [if_pos hburst]
  exact List.mem_append_left _ (List.mem_cons_self _ _)

/-- Five rapid failures from one address, used to witness C5. -/
def exBurst : List LoginAttempt :=
  [⟨"meg", 2, 0, "10.0.0.9"⟩,
   ⟨"meg", 2, 30, "10.0.0.9"⟩,
   ⟨"meg", 2, 60, "10.0.0.9"⟩,
   ⟨"meg", 2, 90, "10.0.0.9"⟩,
   ⟨"meg", 2, 120, "10.0.0.9"⟩]

/-- Witness for C5 at a concrete login history. -/
theorem ato_burst_alert_witness :
    userAttempts exBurst "meg" = [] ++ exBurst ++ [] ∧
    ∃ al ∈ accountTakeoverAlerts exBurst, al.subject = "meg" ∧
      al.category = FraudCategory.account_takeover ∧
      al.severity = Severity.critical :=
  ⟨by decide, ato_burst_alert exBurst "meg" "10.0.0.9" [] exBurst [] 0
    (by decide) (by decide) (by decide) (by decide) (by decide) (by decide)⟩

/-- A Symitar core account record (`account_v1_raw` row shape; dates are
day numbers, `closedDay` mirrors the nullable `closedate`). -/
structure CoreAccountStatus where
  memberNumber : String
  lastfmDay : Nat
  openDay : Nat
  closedDay : Option Nat
deriving DecidableEq

/-- At least one digital transaction inside the trailing 90 days. -/
def recentDigitalTxn (today : Nat) (txs : List Transaction) : Prop :=
  ∃ t ∈ txs, today ≤ txnDay t + 90 ∧ txnDay t ≤ today

instance (today : Nat) (txs : List Transaction) :
    Decidable (recentDigitalTxn today txs) := by
  unfold recentDigitalTxn; exact List.decidableBEx _ _

/-- Modelled from the spec: core-digital-gap rule of the missing
`src/detectors/dormant.py` - no core modification for over 12 months
(365 days) with digital activity in the trailing 90 days. -/
def coreDigitalGapHigh (today : Nat) (st : CoreAccountStatus)
    (txs : List Transaction) : Prop :=
  365 < today - st.lastfmDay ∧ recentDigitalTxn today txs

instance (today : Nat) (st : CoreAccountStatus) (txs : List Transaction) :
    Decidable (coreDigitalGapHigh today st txs) := by
  unfold coreDigitalGapHigh; exact inferInstance

/-- Modelled from the spec: long-dormancy rule - over 5 years (1825
days) of core inactivity with cumulative digital volume over $1,000. -/
def longDormantCritical (today : Nat) (st : CoreAccountStatus)
    (txs : List Transaction) : Prop :=
  1825 < today - st.lastfmDay ∧
    100000 < (txs.map (fun t => t.amountCents.natAbs)).sum

instance (today : Nat) (st : CoreAccountStatus) (txs : List Transaction) :
    Decidable (longDormantCritical today st txs) := by
  unfold longDormantCritical; exact inferInstance

/-- Modelled from the spec: reactivation-spike rule - zero transactions
over a trailing 6-month window followed by more than 5 in one week. -/
def reactivationSpike (txs : List Transaction) : Prop :=
  ∃ t ∈ txs,
    (txs.filter (fun x =>
      decide (txnDay t - 180 ≤ txnDay x ∧ txnDay x < txnDay t))) = [] ∧
    5 < (txs.filter (fun x =>
      decide (txnDay t ≤ txnDay x ∧ txnDay x < txnDay t + 7))).length

instance (txs : List Transaction) : Decidable (reactivationSpike txs) := by
  unfold reactivationSpike; exact List.decidableBEx _ _

/-- Modelled from the spec: per-member rule evaluation of the missing
`src/detectors/dormant.py`; closed accounts (closed-date present) are
excluded entirely, and each triggered rule emits its own alert. -/
def dormantMemberAlerts (today : Nat) (st : CoreAccountStatus)
    (txs : List Transaction) : List Alert :=
  if st.closedDay.isSome then [] else
  (if coreDigitalGapHigh today st txs then
    [⟨st.memberNumber, .dormant_abuse, .high, "core dormant, digital active"⟩]
   else []) ++
  (if longDormantCritical today st txs then
    [⟨st.memberNumber, .dormant_abuse, .critical, "long dormancy, volume"⟩]
   else []) ++
  (if reactivationSpike txs then
    [⟨st.memberNumber, .dormant_abuse, .medium, "reactivation spike"⟩]
   else [])

/-- Modelled from the spec: the dormant-abuse detector receives the
core statuses already joined to each member's digital transactions. -/
def dormantAbuseAlerts (today : Nat)
    (pairs : List (CoreAccountStatus × List Transaction)) : List Alert :=
  pairs.flatMap (fun p => dormantMemberAlerts today p.1 p.2)

/-- A closed account that is core-dormant for over 12 months with a
recent digital transaction: the detector excludes it. -/
def exStClosed : CoreAccountStatus := ⟨"M9", 5000, 4000, some 9900⟩

/-- The closed account's recent digital transaction (day 9950). -/
def exTxsRecent : List Transaction :=
  [⟨"acc9", 500000, 859680000, "atm", "transfer", none⟩]

/-- Counterexample to C6 as stated: the closed account `exStClosed` is
core-dormant for over 12 months and transacted digitally within the
trailing 90 days of day 10000, yet the detector emits no alert for it
(closed accounts are excluded). -/
theorem dormant_closed_counterexample :
    365 < 10000 - exStClosed.lastfmDay ∧
    recentDigitalTxn 10000 exTxsRecent ∧
    dormantAbuseAlerts 10000 [(exStClosed, exTxsRecent)] = [] := by
  decide

/-- Claim C6, amended: for every member account that is not closed
(closed-date absent), core inactivity of more than 12 months combined
with at least one digital transaction in the trailing 90 days makes the
dormant-abuse detector emit a HIGH alert for that member. -/
theorem dormant_gap_alert (today : Nat)
    (pairs : List (CoreAccountStatus × List Transaction))
    (st : CoreAccountStatus) (txs : List Transaction)
    (hmem : (st, txs) ∈ pairs)
    (hopen : st.closedDay = none)
    (hinact : 365 < today - st.lastfmDay)
    (hrecent : recentDigitalTxn today txs) :
    ∃ al ∈ dormantAbuseAlerts today pairs, al.subject = st.memberNumber ∧
      al.category = .dormant_abuse ∧ al.severity = .high := by
  refine ⟨⟨st.memberNumber, .dormant_abuse, .high,
    "core dormant, digital active"⟩,
    List.mem_flatMap.mpr ⟨(st, txs), hmem, ?_⟩, rfl, rfl, rfl⟩
  unfold dormantMemberAlerts
  rw [hopen]
  rw [if_neg (by simp)]
  rw [if_pos ⟨hinact, hrecent⟩]
  exact List.mem_append_left _ (List.mem_append_left _
    (List.mem_cons_self _ _))

/-- An open account with the same dormancy gap, used to witness the
amended C6. -/
def exStOpen : CoreAccountStatus := ⟨"M6", 5000, 4000, none⟩

/-- Witness for the amended C6 at a concrete joined record. -/
theorem dormant_gap_alert_witness :
    (365 < 10000 - exStOpen.lastfmDay ∧ recentDigitalTxn 10000 exTxsRecent) ∧
    ∃ al ∈ dormantAbuseAlerts 10000 [(exStOpen, exTxsRecent)],
      al.subject = "M6" ∧ al.category = FraudCategory.dormant_abuse ∧
      al.severity = Severity.high :=
  ⟨⟨by decide, by decide⟩,
    dormant_gap_alert 10000 [(exStOpen, exTxsRecent)] exStOpen exTxsRecent
      (by decide) rfl (by decide) (by decide)⟩

/-- A Banno user identity record (`users_fct` row shape). -/
structure UserIdentity where
  userId : String
  displayName : String
  email : String
  createdDay : Nat
  active : Bool
  memberNumber : Option String
deriving DecidableEq

/-- Modelled from the spec: normalized email key - the local part before
the provider domain, case-insensitively (so the three `mbannister@...`
variants share one key). -/
def normEmailKey (e : String) : String :=
  (e.takeWhile (fun c => c != '@')).toLower

/-- Add one identity to the keyed cluster list: append it to the bucket
carrying its normalized email key, or open a new bucket. -/
def insertIdentity : List (String × List UserIdentity) → UserIdentity →
    List (String × List UserIdentity)
  | [], u => [(normEmailKey u.email, [u])]
  | (k, b) :: rest, u =>
    if k = normEmailKey u.email then (k, u :: b) :: rest
    else (k, b) :: insertIdentity rest u

/-- Modelled from the spec: the missing `src/detectors/multi_identity.py`
partitions the identity collection into clusters keyed by the normalized
email. -/
def emailClusters (l : List UserIdentity) : List (String × List UserIdentity) :=
  l.foldl insertIdentity []

/-- Two identities land in one cluster of the detector's partition. -/
def inSameCluster (l : List UserIdentity) (a b : UserIdentity) : Prop :=
  ∃ c ∈ emailClusters l, a ∈ c.2 ∧ b ∈ c.2

instance (l : List UserIdentity) (a b : UserIdentity) :
    Decidable (inSameCluster l a b) := by
  unfold inSameCluster; exact List.decidableBEx _ _

/-- Modelled from the spec: per-cluster rules of the multi-identity
detector (more than 2 distinct display names at HIGH, cluster size over
5 at CRITICAL, creation velocity at HIGH). -/
def multiIdentityAlerts (l : List UserIdentity) : List Alert :=
  (emailClusters l).flatMap (fun c =>
    (if 2 < (c.2.map (fun u => u.displayName)).dedup.length then
      [⟨c.1, .multi_identity, .high, "shared email, multiple names"⟩]
     else []) ++
    (if 5 < c.2.length then
      [⟨c.1, .multi_identity, .critical, "identity cluster over 5"⟩]
     else []) ++
    (if ∃ u ∈ c.2, 3 ≤ (c.2.filter (fun v =>
        decide (u.createdDay ≤ v.createdDay ∧
          v.createdDay < u.createdDay + 365))).length then
      [⟨c.1, .multi_identity, .high, "creation velocity"⟩]
     else []))

/-- Bucket membership after inserting one identity. -/
theorem mem_bucket_insertIdentity
    (cs : List (String × List UserIdentity)) (u a : UserIdentity)
    (k : String) :
    (∃ c ∈ insertIdentity cs u, c.1 = k ∧ a ∈ c.2) ↔
      ((∃ c ∈ cs, c.1 = k ∧ a ∈ c.2) ∨
        (a = u ∧ k = normEmailKey u.email)) := by
  induction cs with
  | nil =>
    simp only [insertIdentity, List.mem_singleton, List.not_mem_nil,
      false_and, exists_false, false_or]
    constructor
    · rintro ⟨c, rfl, hk, ha⟩
      simp only [List.mem_singleton] at ha
      exact ⟨ha, hk.symm⟩
    · rintro ⟨rfl, rfl⟩
      exact ⟨_, rfl, rfl, List.mem_singleton.mpr rfl⟩
  | cons hd rest ih =>
    obtain ⟨k₀, b⟩ := hd
    by_cases hk : k₀ = normEmailKey u.email
    · have heq : insertIdentity ((k₀, b) :: rest) u = (k₀, u :: b) :: rest := by
        simp only [insertIdentity]
        rw [if_pos hk]
      rw [heq]
      constructor
      · rintro ⟨c, hc, hck, ha⟩
        rcases List.mem_cons.mp hc with rfl | hc
        · rcases List.mem_cons.mp ha with rfl | ha
          · exact Or.inr ⟨rfl, hck ▸ hk⟩
          · exact Or.inl ⟨(k₀, b), List.mem_cons_self _ _, hck, ha⟩
        · exact Or.inl ⟨c, List.mem_cons_of_mem _ hc, hck, ha⟩
      · rintro (⟨c, hc, hck, ha⟩ | ⟨rfl, rfl⟩)
        · rcases List.mem_cons.mp hc with rfl | hc
          · exact ⟨(k₀, u :: b), List.mem_cons_self _ _, hck,
              List.mem_cons_of_mem _ ha⟩
          · exact ⟨c, List.mem_cons_of_mem _ hc, hck, ha⟩
        · exact ⟨_, List.mem_cons_self _ _, hk, List.mem_cons_self _ _⟩
    · have heq : insertIdentity ((k₀, b) :: rest) u =
          (k₀, b) :: insertIdentity rest u := by
        simp only [insertIdentity]
        rw [if_neg hk]
      rw [heq]
      constructor
      · rintro ⟨c, hc, hck, ha⟩
        rcases List.mem_cons.mp hc with rfl | hc
        · exact Or.inl ⟨(k₀, b), List.mem_cons_self _ _, hck, ha⟩
        · rcases ih.mp ⟨c, hc, hck, ha⟩ with ⟨c₂, hc₂, hck₂, ha₂⟩ | h
          · exact Or.inl ⟨c₂, List.mem_cons_of_mem _ hc₂, hck₂, ha₂⟩
          · exact Or.inr h
      · rintro (⟨c, hc, hck, ha⟩ | h)
        · rcases List.mem_cons.mp hc with rfl | hc
          · exact ⟨(k₀, b), List.mem_cons_self _ _, hck, ha⟩
          · obtain ⟨c₂, hc₂, hck₂, ha₂⟩ := ih.mpr (Or.inl ⟨c, hc, hck, ha⟩)
            exact ⟨c₂, List.mem_cons_of_mem _ hc₂, hck₂, ha₂⟩
        · obtain ⟨c₂, hc₂, hck₂, ha₂⟩ := ih.mpr (Or.inr h)
          exact ⟨c₂, List.mem_cons_of_mem _ hc₂, hck₂, ha₂⟩

/-- Bucket membership across the whole clustering fold. -/
theorem mem_bucket_foldl (l : List UserIdentity)
    (cs : List (String × List UserIdentity)) (a : UserIdentity)
    (k : String) :
    (∃ c ∈ l.foldl insertIdentity cs, c.1 = k ∧ a ∈ c.2) ↔
      ((∃ c ∈ cs, c.1 = k ∧ a ∈ c.2) ∨
        (a ∈ l ∧ k = normEmailKey a.email)) := by
  induction l generalizing cs with
  | nil => simp
  | cons u rest ih =>
    rw [List.foldl_cons, ih, mem_bucket_insertIdentity]
    constructor
    · rintro ((h | ⟨rfl, rfl⟩) | ⟨hmem, rfl⟩)
      · exact Or.inl h
      · exact Or.inr ⟨List.mem_cons_self _ _, rfl⟩
      · exact Or.inr ⟨List.mem_cons_of_mem _ hmem, rfl⟩
    · rintro (h | ⟨hmem, rfl⟩)
      · exact Or.inl (Or.inl h)
      · rcases List.mem_cons.mp hmem with rfl | h
        · exact Or.inl (Or.inr ⟨rfl, rfl⟩)
        · exact Or.inr ⟨h, rfl⟩

/-- The keys present after inserting one identity. -/
theorem keys_insertIdentity (cs : List (String × List UserIdentity))
    (u : UserIdentity) (k : String) :
    k ∈ (insertIdentity cs u).map Prod.fst ↔
      k ∈ cs.map Prod.fst ∨ k = normEmailKey u.email := by
  induction cs with
  | nil => simp [insertIdentity]
  | cons hd rest ih =>
    obtain ⟨k₀, b⟩ := hd
    by_cases hk : k₀ = normEmailKey u.email
    · have heq : insertIdentity ((k₀, b) :: rest) u = (k₀, u :: b) :: rest := by
        simp only [insertIdentity]
        rw [if_pos hk]
      rw [heq]
      simp only [List.map_cons, List.mem_cons]
      constructor
      · rintro (h | h)
        · exact Or.inl (Or.inl h)
        · exact Or.inl (Or.inr h)
      · rintro ((h | h) | h)
        · exact Or.inl h
        · exact Or.inr h
        · exact Or.inl (hk ▸ h)
    · have heq : insertIdentity ((k₀, b) :: rest) u =
          (k₀, b) :: insertIdentity rest u := by
        simp only [insertIdentity]
        rw [if_neg hk]
      rw [heq]
      simp only [List.map_cons, List.mem_cons, ih]
      tauto

/-- Inserting an identity keeps the bucket keys distinct. -/
theorem keys_nodup_insertIdentity (cs : List (String × List UserIdentity))
    (u : UserIdentity) (h : (cs.map Prod.fst).Nodup) :
    ((insertIdentity cs u).map Prod.fst).Nodup := by
  induction cs with
  | nil => simp [insertIdentity]
  | cons hd rest ih =>
    obtain ⟨k₀, b⟩ := hd
    rw [List.map_cons, List.nodup_cons] at h
    by_cases hk : k₀ = normEmailKey u.email
    · have heq : insertIdentity ((k₀, b) :: rest) u = (k₀, u :: b) :: rest := by
        simp only [insertIdentity]
        rw [if_pos hk]
      rw [heq, List.map_cons, List.nodup_cons]
      exact h
    · have heq : insertIdentity ((k₀, b) :: rest) u =
          (k₀, b) :: insertIdentity rest u := by
        simp only [insertIdentity]
        rw [if_neg hk]
      rw [heq, List.map_cons, List.nodup_cons]
      refine ⟨fun hc => ?_, ih h.2⟩
      rcases (keys_insertIdentity rest u k₀).mp hc with hc | hc
      · exact h.1 hc
      · exact hk hc

/-- Buckets with equal keys coincide when the keys are distinct. -/
theorem bucket_eq_of_key_eq (cs : List (String × List UserIdentity))
    (h : (cs.map Prod.fst).Nodup) :
    ∀ c₁ ∈ cs, ∀ c₂ ∈ cs, c₁.1 = c₂.1 → c₁ = c₂ := by
  induction cs with
  | nil => simp
  | cons hd rest ih =>
    rw [List.map_cons, List.nodup_cons] at h
    rintro c₁ hc₁ c₂ hc₂ hkey
    rcases List.mem_cons.mp hc₁ with rfl | h₁
    · rcases List.mem_cons.mp hc₂ with rfl | h₂
      · rfl
      · exact absurd (List.mem_map.mpr ⟨c₂, h₂, hkey.symm⟩) h.1
    · rcases List.mem_cons.mp hc₂ with rfl | h₂
      · exact absurd (List.mem_map.mpr ⟨c₁, h₁, hkey⟩) h.1
      · exact ih h.2 c₁ h₁ c₂ h₂ hkey

/-- The clustering fold produces distinct bucket keys. -/
theorem emailClusters_keys_nodup (l : List UserIdentity) :
    ((emailClusters l).map Prod.fst).Nodup := by
  suffices h : ∀ cs, (List.map Prod.fst cs).Nodup →
      ((l.foldl insertIdentity cs).map Prod.fst).Nodup from
    h [] (by simp)
  induction l with
  | nil => exact fun cs h => h
  | cons u rest ih => exact fun cs h => ih _ (keys_nodup_insertIdentity cs u h)

/-- Cluster membership is exactly agreement of the normalized email key
inside the input collection. -/
theorem inSameCluster_iff (l : List UserIdentity) (a b : UserIdentity) :
    inSameCluster l a b ↔
      (a ∈ l ∧ b ∈ l ∧ normEmailKey a.email = normEmailKey b.email) := by
  unfold inSameCluster emailClusters
  constructor
  · rintro ⟨c, hc, ha, hb⟩
    have h₁ := (mem_bucket_foldl l [] a c.1).mp ⟨c, hc, rfl, ha⟩
    have h₂ := (mem_bucket_foldl l [] b c.1).mp ⟨c, hc, rfl, hb⟩
    simp only [List.not_mem_nil, false_and, exists_false, false_or] at h₁ h₂
    exact ⟨h₁.1, h₂.1, by rw [← h₁.2, ← h₂.2]⟩
  · rintro ⟨ha, hb, hk⟩
    obtain ⟨c₁, hc₁, hk₁, ha₁⟩ :=
      (mem_bucket_foldl l [] a (normEmailKey a.email)).mpr (Or.inr ⟨ha, rfl⟩)
    obtain ⟨c₂, hc₂, hk₂, hb₂⟩ :=
      (mem_bucket_foldl l [] b (normEmailKey a.email)).mpr
        (Or.inr ⟨hb, hk⟩)
    have hceq : c₁ = c₂ :=
      bucket_eq_of_key_eq _ (emailClusters_keys_nodup l) c₁ hc₁ c₂ hc₂
        (by rw [hk₁, hk₂])
    exact ⟨c₁, hc₁, ha₁, hceq ▸ hb₂⟩

/-- Inserting an identity only adds it to the flattened contents. -/
theorem flatMap_insertIdentity_perm
    (cs : List (String × List UserIdentity)) (u : UserIdentity) :
    ((insertIdentity cs u).flatMap Prod.snd).Perm
      (u :: cs.flatMap Prod.snd) := by
  induction cs with
  | nil => simp [insertIdentity]
  | cons hd rest ih =>
    obtain ⟨k₀, b⟩ := hd
    by_cases hk : k₀ = normEmailKey u.email
    · subst hk
      simp only [insertIdentity, if_pos rfl, List.flatMap_cons]
      exact List.Perm.refl _
    · simp only [insertIdentity, if_neg hk, List.flatMap_cons]
      exact (List.Perm.append_left b ih).trans List.perm_middle

/-- The clusters partition the input: flattening them permutes it. -/
theorem emailClusters_flatten_perm (l : List UserIdentity) :
    ((emailClusters l).flatMap Prod.snd).Perm l := by
  suffices h : ∀ cs, ((l.foldl insertIdentity cs).flatMap Prod.snd).Perm
      (cs.flatMap Prod.snd ++ l) by
    simpa using h []
  induction l with
  | nil => intro cs; simp
  | cons u rest ih =>
    intro cs
    rw [List.foldl_cons]
    refine (ih (insertIdentity cs u)).trans ?_
    refine (List.Perm.append_right rest (flatMap_insertIdentity_perm cs u)).trans ?_
    exact List.perm_middle.symm

/-- Claim C7: cluster membership computed by the multi-identity detector
is independent of the processing order of the input records, and
rerunning the detector on its own grouping of the collection leaves
cluster membership unchanged (the computation itself is a pure function,
so two runs on the identical input agree definitionally). -/
theorem multi_identity_cluster_stable (l₁ l₂ : List UserIdentity)
    (h : l₁.Perm l₂) :
    (∀ a b, inSameCluster l₁ a b ↔ inSameCluster l₂ a b) ∧
    (∀ a b, inSameCluster ((emailClusters l₁).flatMap Prod.snd) a b ↔
      inSameCluster l₁ a b) := by
  have key : ∀ (m₁ m₂ : List UserIdentity), m₁.Perm m₂ →
      ∀ a b, inSameCluster m₁ a b ↔ inSameCluster m₂ a b := by
    intro m₁ m₂ hp a b
    rw [inSameCluster_iff, inSameCluster_iff, hp.mem_iff, hp.mem_iff]
  exact ⟨key l₁ l₂ h, key _ l₁ (emailClusters_flatten_perm l₁)⟩

/-- Identity records sharing the `mbannister` key, used to witness C7. -/
def exIds : List UserIdentity :=
  [⟨"u1", "LULA ROE", "mbannister@jackhenry.com", 100, true, none⟩,
   ⟨"u2", "ANNA MARIE", "MBannister@symitar.com", 200, true, none⟩,
   ⟨"u3", "MARIE LONG", "kwohlschlegel@jackhenry.com", 300, true,
     some "39903"⟩]

/-- The same identity records in another processing order. -/
def exIdsPerm : List UserIdentity :=
  [⟨"u3", "MARIE LONG", "kwohlschlegel@jackhenry.com", 300, true,
     some "39903"⟩,
   ⟨"u1", "LULA ROE", "mbannister@jackhenry.com", 100, true, none⟩,
   ⟨"u2", "ANNA MARIE", "MBannister@symitar.com", 200, true, none⟩]

/-- Witness for C7 at a concrete identity collection. -/
theorem multi_identity_cluster_stable_witness :
    exIds.Perm exIdsPerm ∧
    ((∀ a b, inSameCluster exIds a b ↔ inSameCluster exIdsPerm a b) ∧
     (∀ a b, inSameCluster ((emailClusters exIds).flatMap Prod.snd) a b ↔
       inSameCluster exIds a b)) :=
  ⟨by decide, multi_identity_cluster_stable exIds exIdsPerm (by decide)⟩

/-- The `login_stats` failed-attempt window of
`sql/02_account_takeover.sql`:
`SUM(CASE WHEN result_id != 1 THEN 1 ELSE 0 END) OVER (PARTITION BY
username)`. -/
def failedAttemptCount (logins : List LoginAttempt) (u : String) : Nat :=
  ((logins.filter (fun a => a.username == u)).map
    (fun a => if a.resultId ≠ 1 then 1 else 0)).sum

/-- Summing an indicator over a list counts the matching elements. -/
theorem sum_ind_eq_count {α : Type} (p : α → Prop) [DecidablePred p]
    (l : List α) :
    (l.map (fun a => if p a then (1 : Nat) else 0)).sum =
      (l.filter (fun a => decide (p a))).length := by
  induction l with
  | nil => rfl
  | cons x xs ih =>
    by_cases hx : p x
    · simp [List.filter_cons, hx, ih]
      omega
    · simp [List.filter_cons, hx, ih]

/-- Claim C10: the login statistics count an attempt as failed exactly
when its result code differs from 1; in particular dormant-account (4),
service-unavailable (10) and customer-not-found (11) results all add to
the username's failed-attempt total, while a success (1) does not. -/
theorem login_failed_count_def (logins : List LoginAttempt) (u : String) :
    failedAttemptCount logins u =
      ((logins.filter (fun a => a.username == u)).filter
        (fun a => decide (a.resultId ≠ 1))).length ∧
    (∀ a : LoginAttempt, a.username = u →
      (a.resultId = 4 ∨ a.resultId = 10 ∨ a.resultId = 11) →
      failedAttemptCount (a :: logins) u = failedAttemptCount logins u + 1) ∧
    (∀ a : LoginAttempt, a.username = u → a.resultId = 1 →
      failedAttemptCount (a :: logins) u = failedAttemptCount logins u) := by
  refine ⟨sum_ind_eq_count _ _, ?_, ?_⟩
  · intro a hu hr
    have hne : a.resultId ≠ 1 := by rcases hr with h | h | h <;> omega
    unfold failedAttemptCount
    rw [List.filter_cons]
    have hbeq : (a.username == u) = true := by rw [hu]; exact beq_self_eq_true u
    rw [if_pos hbeq, List.map_cons, List.sum_cons, if_pos hne]
    omega
  · intro a hu hr
    unfold failedAttemptCount
    rw [List.filter_cons]
    have hbeq : (a.username == u) = true := by rw [hu]; exact beq_self_eq_true u
    rw [if_pos hbeq, List.map_cons, List.sum_cons, if_neg (by omega)]
    omega

/-- Login history with result codes 1, 2, 4, 10 and 11, witnessing C10. -/
def exCodes : List LoginAttempt :=
  [⟨"w", 1, 0, "1.1.1.1"⟩,
   ⟨"w", 2, 10, "1.1.1.1"⟩,
   ⟨"w", 4, 20, "1.1.1.1"⟩,
   ⟨"w", 10, 30, "1.1.1.1"⟩,
   ⟨"w", 11, 40, "1.1.1.1"⟩]

/-- Witness for C10 at a concrete login history. -/
theorem login_failed_count_witness :
    failedAttemptCount exCodes "w" =
      ((exCodes.filter (fun a => a.username == "w")).filter
        (fun a => decide (a.resultId ≠ 1))).length ∧
    failedAttemptCount (⟨"w", 4, 50, "1.1.1.1"⟩ :: exCodes) "w" =
      failedAttemptCount exCodes "w" + 1 ∧
    failedAttemptCount (⟨"w", 1, 50, "1.1.1.1"⟩ :: exCodes) "w" =
      failedAttemptCount exCodes "w" :=
  ⟨(login_failed_count_def exCodes "w").1,
   (login_failed_count_def exCodes "w").2.1 _ rfl (Or.inl rfl),
   (login_failed_count_def exCodes "w").2.2 _ rfl rfl⟩
